import Mathlib

/-!
# Verification of the layout engine of `scientific_panel_generator.py`

Shallow embedding of the core of `src/scientific_panel_generator.py`:
the configuration built by `PanelGenerator.__init__`, the metrics
extractor `get_pdf_metrics`, the descriptor parser
`parse_layout_structure`, and the geometry calculator
`calculate_layout`.

Modelling conventions:
* Python floats are embedded as rationals (`ℚ`); all the arithmetic in
  the source (`+`, `-`, `*`, `/`, `max`, `sum`) is exact on the inputs
  the claims are about, so `ℚ` reproduces it faithfully.
* Python strings are embedded as `List Char` (ASCII descriptors);
  `str.split(sep)` becomes `splitOnChar`, `str.isdigit` becomes
  `isDigits` (ASCII digits), `int(x)` on a signed decimal literal
  becomes `pyInt` / `digitsToNat`.
* Python `metrics[i]` is `metricAt`; all uses in the claims are
  in range, where it agrees with Python list indexing.
* Python float division raises `ZeroDivisionError` on a zero divisor.
  `calculate_layout` is embedded twice: `calculate_layout` gives the
  value semantics with Lean's total `/` (junk on a zero divisor), and
  `calculate_layoutChecked` mirrors the run's crash behaviour by
  returning `none` exactly when some executed division has divisor 0.
* The file reader `fitz.open(path); doc[0].rect` is abstracted as an
  environment `env : String → Option (ℚ × ℚ)` giving the first page's
  width and height, `none` standing for any failure caught by the
  `try/except` in `get_pdf_metrics`.
-/

namespace PanelGen

/-- `mm = 2.83465`: points per millimetre (module-level constant). -/
def mm : ℚ := 283465 / 100000

/-- The state set up by `PanelGenerator.__init__`: page width/height in
mm (height `none` models Python `None`), margin and spacing already
converted to points, the label size, and the precomputed usable width. -/
structure Config where
  page_width_mm : ℚ
  page_height_mm : Option ℚ
  margin : ℚ
  spacing : ℚ
  label_size : ℚ
  usable_width : ℚ
deriving DecidableEq

/-- `PanelGenerator.__init__(page_width, page_height, margin, spacing,
label_size)`: stores `margin * mm`, `spacing * mm` and
`usable_width = page_width * mm - 2 * self.margin`. -/
def mkPanelGenerator (page_width : ℚ) (page_height : Option ℚ)
    (margin : ℚ) (spacing : ℚ) (label_size : ℚ) : Config :=
  { page_width_mm := page_width
    page_height_mm := page_height
    margin := margin * mm
    spacing := spacing * mm
    label_size := label_size
    usable_width := page_width * mm - 2 * (margin * mm) }

/-- One entry of the list built by `get_pdf_metrics`:
`{'width': w, 'height': h, 'ratio': r, 'path': p}`. -/
structure Metric where
  width : ℚ
  height : ℚ
  ratio : ℚ
  path : String
deriving DecidableEq

/-- `get_pdf_metrics`: for each path, read the first page's rectangle
through the abstracted reader `env`; on success store
`ratio = width / height if height > 0 else 1.0`, on any failure store
the fallback `{'width': 100, 'height': 100, 'ratio': 1.0}`. -/
def get_pdf_metrics (env : String → Option (ℚ × ℚ)) (file_paths : List String) :
    List Metric :=
  file_paths.map fun path =>
    match env path with
    | some (w, h) =>
        { width := w, height := h, ratio := if 0 < h then w / h else 1, path := path }
    | none => { width := 100, height := 100, ratio := 1, path := path }

/-! ## The descriptor parser `parse_layout_structure` -/

/-- ASCII rendering of Python `str.lower()`. -/
def toLowerList (s : List Char) : List Char := s.map Char.toLower

/-- Python `str.split(sep)` for a one-character separator:
`"a,,b".split(',') == ['a', '', 'b']` and `"".split(',') == ['']`. -/
def splitOnChar (sep : Char) : List Char → List (List Char)
  | [] => [[]]
  | c :: rest =>
      let r := splitOnChar sep rest
      if c = sep then [] :: r
      else
        match r with
        | [] => [[c]]
        | t :: ts => (c :: t) :: ts

/-- Python `str.isdigit()` on ASCII text: nonempty and all digits. -/
def isDigits (s : List Char) : Bool := !s.isEmpty && s.all (·.isDigit)

/-- Python `int(x)` on an all-digit string: its decimal value. -/
def digitsToNat (s : List Char) : ℕ :=
  s.foldl (fun a c => 10 * a + (c.toNat - 48)) 0

/-- Python `int(x)` on a signed decimal string, `none` when `int`
raises `ValueError` (used by the `'2x2'` branch; whitespace and
underscore tolerance of `int` is irrelevant to the claims). -/
def pyInt : List Char → Option Int
  | '-' :: rest => if isDigits rest then some (-(digitsToNat rest : Int)) else none
  | '+' :: rest => if isDigits rest then some ((digitsToNat rest : Int)) else none
  | s => if isDigits s then some ((digitsToNat s : Int)) else none

/-- `int(x) if x.isdigit() else len(x)`: one token of the `'2,1'` /
`'AB-C'` row-counts form. -/
def tokenCount (x : List Char) : ℕ :=
  if isDigits x then digitsToNat x else x.length

/-- The inner loop shared by the grid and row-counts branches:
`for _ in range(count): if idx < num_files: row.append(idx); idx += 1`.
Returns the row together with the updated `idx`. -/
def buildRow : ℕ → ℕ → ℕ → List ℕ × ℕ
  | 0, idx, _ => ([], idx)
  | count + 1, idx, num_files =>
      if idx < num_files then
        let res := buildRow count (idx + 1) num_files
        (idx :: res.1, res.2)
      else buildRow count idx num_files

/-- The row-counts loop: `for count in row_counts: ...` with
`if row: structure.append(row)`. -/
def buildCounts : List ℕ → ℕ → ℕ → List (List ℕ)
  | [], _, _ => []
  | count :: rest, idx, num_files =>
      let res := buildRow count idx num_files
      let restRows := buildCounts rest res.2 num_files
      if res.1.isEmpty then restRows else res.1 :: restRows

/-- The grid loop of the `'2x2'` branch: `for r in range(rows)` rows of
up to `cols` cells, `if row: structure.append(row)`. Negative `rows` or
`cols` give empty iteration, as `range` does. -/
def buildGrid : ℕ → ℕ → ℕ → ℕ → List (List ℕ)
  | 0, _, _, _ => []
  | rows + 1, cols, idx, num_files =>
      let res := buildRow cols idx num_files
      let restRows := buildGrid rows cols res.2 num_files
      if res.1.isEmpty then restRows else res.1 :: restRows

/-- `parse_layout_structure` before the final recovery step: the three
mutually exclusive branches (`'2x2'` grid; `'2,1'` / `'AB-C'`
row-counts; simple `'3'` / `'ABC'`), each `try/except` turned into the
corresponding `Option` match (a failed parse yields an empty
structure). -/
def parseCore (layout_str : List Char) (num_files : ℕ) : List (List ℕ) :=
  if (toLowerList layout_str).contains 'x' then
    match splitOnChar 'x' (toLowerList layout_str) with
    | [a, b] =>
        match pyInt a, pyInt b with
        | some cols, some rows => buildGrid rows.toNat cols.toNat 0 num_files
        | _, _ => []
    | _ => []
  else if layout_str.contains ',' || layout_str.contains '-' then
    let sep := if layout_str.contains ',' then ',' else '-'
    buildCounts ((splitOnChar sep layout_str).map tokenCount) 0 num_files
  else if isDigits layout_str then
    [List.range (min (digitsToNat layout_str) num_files)]
  else
    [List.range (min layout_str.length num_files)]

/-- `parse_layout_structure`: the three branches followed by the
recovery step appending `list(range(total_in_struct, num_files))` when
indices are missing. -/
def parse_layout_structure (layout_str : List Char) (num_files : ℕ) :
    List (List ℕ) :=
  let struct := parseCore layout_str num_files
  let total_in_struct := (struct.map List.length).sum
  if total_in_struct < num_files then
    struct ++ [List.range' total_in_struct (num_files - total_in_struct)]
  else struct

/-! ## The geometry calculator `calculate_layout`

The local variables of the Python function become named definitions, so
the claims can speak about the intermediate quantities (ideal row
heights, scale factor, final usable height). `struct` stands for the
Python parameter `structure` (a Lean keyword). -/

/-- A rectangle `fitz.Rect(x0, y0, x1, y1)`. -/
structure Rect where
  x0 : ℚ
  y0 : ℚ
  x1 : ℚ
  y1 : ℚ
deriving DecidableEq

/-- One entry of `panel_configs`: `{'index': i, 'rect': r, 'path': p}`. -/
structure PanelPlacement where
  index : ℕ
  rect : Rect
  path : String
deriving DecidableEq

/-- The dictionary returned by `calculate_layout`:
`{'page_size': (w, h), 'panels': panel_configs}`. -/
structure PageResult where
  page_width : ℚ
  page_height : ℚ
  panels : List PanelPlacement
deriving DecidableEq

/-- Python `metrics[i]`; every use reached by the claims is in range,
where this agrees with list indexing (the dummy has ratio 0 so an
out-of-range read never hides a division by zero). -/
def metricAt (metrics : List Metric) (i : ℕ) : Metric :=
  metrics.getD i ⟨0, 0, 0, ""⟩

/-- `avail_w = self.usable_width - (num_panels - 1) * self.spacing`
(the subtraction `num_panels - 1` is Python `int` arithmetic, hence
computed in `ℚ` after the cast: it is `-1` for an empty row). -/
def rowAvailWidth (cfg : Config) (row : List ℕ) : ℚ :=
  cfg.usable_width - ((row.length : ℚ) - 1) * cfg.spacing

/-- `panel_w = avail_w / num_panels`. -/
def rowPanelWidth (cfg : Config) (row : List ℕ) : ℚ :=
  rowAvailWidth cfg row / (row.length : ℚ)

/-- The `required_height` loop:
`required_height = max(required_height, panel_w / m['ratio'])`
starting from `0`. -/
def rowRequiredHeight (cfg : Config) (metrics : List Metric) (row : List ℕ) : ℚ :=
  row.foldl (fun acc i => max acc (rowPanelWidth cfg row / (metricAt metrics i).ratio)) 0

/-- One entry of `row_ideal_heights`:
`required_height + self.label_size + 4`. -/
def rowIdealHeight (cfg : Config) (metrics : List Metric) (row : List ℕ) : ℚ :=
  rowRequiredHeight cfg metrics row + cfg.label_size + 4

/-- The list `row_ideal_heights`. -/
def rowIdealHeights (cfg : Config) (metrics : List Metric) (struct : List (List ℕ)) :
    List ℚ :=
  struct.map (rowIdealHeight cfg metrics)

/-- `total_ideal_height = sum(row_ideal_heights) +
(len(structure) - 1) * self.spacing + 2 * self.margin`. -/
def totalIdealHeight (cfg : Config) (metrics : List Metric) (struct : List (List ℕ)) : ℚ :=
  (rowIdealHeights cfg metrics struct).sum
    + ((struct.length : ℚ) - 1) * cfg.spacing + 2 * cfg.margin

/-- Python truthiness of `self.page_height_mm`: `None` and `0.0` are
falsy (`if self.page_height_mm:`). -/
def fixedHeightMM (cfg : Config) : ℚ := cfg.page_height_mm.getD 0

/-- `final_page_height = self.page_height_mm * mm if self.page_height_mm
else total_ideal_height`. -/
def finalPageHeight (cfg : Config) (metrics : List Metric) (struct : List (List ℕ)) : ℚ :=
  if fixedHeightMM cfg ≠ 0 then fixedHeightMM cfg * mm
  else totalIdealHeight cfg metrics struct

/-- `final_usable_height = final_page_height - 2 * self.margin -
(len(structure) - 1) * self.spacing`. -/
def finalUsableHeight (cfg : Config) (metrics : List Metric) (struct : List (List ℕ)) : ℚ :=
  finalPageHeight cfg metrics struct - 2 * cfg.margin
    - ((struct.length : ℚ) - 1) * cfg.spacing

/-- `scale_factor = final_usable_height / sum(row_ideal_heights)
if sum(row_ideal_heights) > 0 else 1.0`. -/
def scaleFactor (cfg : Config) (metrics : List Metric) (struct : List (List ℕ)) : ℚ :=
  if 0 < (rowIdealHeights cfg metrics struct).sum then
    finalUsableHeight cfg metrics struct / (rowIdealHeights cfg metrics struct).sum
  else 1

/-- `actual_row_heights`: scaled by `scale_factor` when a fixed page
height is configured (truthy), otherwise the ideal heights. -/
def actualRowHeights (cfg : Config) (metrics : List Metric) (struct : List (List ℕ)) :
    List ℚ :=
  if fixedHeightMM cfg ≠ 0 then
    (rowIdealHeights cfg metrics struct).map (· * scaleFactor cfg metrics struct)
  else rowIdealHeights cfg metrics struct

/-- The inner placement loop (`for i in row_indices:`): starting at
`current_x`, each panel gets `Rect(x, y, x + panel_w, y + h)` and
`current_x` advances by `panel_w + spacing`. -/
def placeRowPanels (cfg : Config) (metrics : List Metric) (h y : ℚ) :
    List ℕ → ℚ → ℚ → List PanelPlacement
  | [], _, _ => []
  | i :: rest, x, w =>
      { index := i, rect := ⟨x, y, x + w, y + h⟩, path := (metricAt metrics i).path }
        :: placeRowPanels cfg metrics h y rest (x + w + cfg.spacing) w

/-- The outer placement loop (`for row_idx, row_indices in
enumerate(structure):`) over rows paired with their actual heights:
each row restarts `current_x = margin`, recomputes `panel_w`, and
`current_y` advances by `h + spacing`. -/
def placeRows (cfg : Config) (metrics : List Metric) :
    List (List ℕ × ℚ) → ℚ → List PanelPlacement
  | [], _ => []
  | (row, h) :: rest, y =>
      placeRowPanels cfg metrics h y row cfg.margin (rowPanelWidth cfg row)
        ++ placeRows cfg metrics rest (y + h + cfg.spacing)

/-- `calculate_layout`: value semantics with total division (see the
header; `calculate_layoutChecked` accounts for `ZeroDivisionError`).
`page_size = (self.page_width_mm * mm, final_page_height)`. -/
def calculate_layout (cfg : Config) (struct : List (List ℕ)) (metrics : List Metric) :
    PageResult :=
  { page_width := cfg.page_width_mm * mm
    page_height := finalPageHeight cfg metrics struct
    panels := placeRows cfg metrics
      (struct.zip (actualRowHeights cfg metrics struct)) cfg.margin }

/-! ## Crash-aware variant

Python raises `ZeroDivisionError` also for floats, so a run of
`calculate_layout` aborts exactly when one of its executed divisions
has a zero divisor: `panel_w = avail_w / num_panels` (computed in the
ideal-height pass and again in the placement pass) and
`h_at_panel_w = panel_w / m['ratio']`; the `scale_factor` division is
guarded by `sum > 0`. `calculate_layoutChecked` threads these checks
through `Option`. -/

/-- Python float division: `none` on `ZeroDivisionError`. -/
def pyDiv (a b : ℚ) : Option ℚ := if b = 0 then none else some (a / b)

/-- Crash-aware `required_height` loop of one row, followed by
`+ label_size + 4`. -/
def rowIdealHeightChecked (cfg : Config) (metrics : List Metric) (row : List ℕ) :
    Option ℚ := do
  let panel_w ← pyDiv (rowAvailWidth cfg row) (row.length : ℚ)
  let required ← row.foldlM
    (fun acc i => do
      let h ← pyDiv panel_w (metricAt metrics i).ratio
      pure (max acc h))
    (0 : ℚ)
  pure (required + cfg.label_size + 4)

/-- Crash-aware placement pass: `panel_w` is recomputed per row, with
the same `avail_w / num_panels` division as the first pass. -/
def placeRowsChecked (cfg : Config) (metrics : List Metric) :
    List (List ℕ × ℚ) → ℚ → Option (List PanelPlacement)
  | [], _ => some []
  | (row, h) :: rest, y => do
      let panel_w ← pyDiv (rowAvailWidth cfg row) (row.length : ℚ)
      let more ← placeRowsChecked cfg metrics rest (y + h + cfg.spacing)
      pure (placeRowPanels cfg metrics h y row cfg.margin panel_w ++ more)

/-- `calculate_layout` with Python's crash behaviour: `none` exactly
when the run raises `ZeroDivisionError`. -/
def calculate_layoutChecked (cfg : Config) (struct : List (List ℕ))
    (metrics : List Metric) : Option PageResult := do
  let ideals ← struct.mapM (rowIdealHeightChecked cfg metrics)
  let total_ideal := ideals.sum + ((struct.length : ℚ) - 1) * cfg.spacing + 2 * cfg.margin
  let final_page_height :=
    if fixedHeightMM cfg ≠ 0 then fixedHeightMM cfg * mm else total_ideal
  let final_usable_height :=
    final_page_height - 2 * cfg.margin - ((struct.length : ℚ) - 1) * cfg.spacing
  let actuals :=
    if fixedHeightMM cfg ≠ 0 then
      ideals.map (· * (if 0 < ideals.sum then final_usable_height / ideals.sum else 1))
    else ideals
  let panels ← placeRowsChecked cfg metrics (struct.zip actuals) cfg.margin
  pure { page_width := cfg.page_width_mm * mm
         page_height := final_page_height
         panels := panels }

/-! ## Parser lemmas: the placed indices are an initial segment -/

/-- Once `idx` has reached `num_files`, the inner loop places nothing. -/
lemma buildRow_of_le (count idx num_files : ℕ) (h : num_files ≤ idx) :
    buildRow count idx num_files = ([], idx) := by
  induction count with
  | zero => rfl
  | succ c ih => simp [buildRow, Nat.not_lt.mpr h, ih]

/-- The inner loop places the consecutive indices from `idx` up to
`min (idx + count) num_files`. -/
lemma buildRow_eq (count idx num_files : ℕ) (h : idx ≤ num_files) :
    buildRow count idx num_files =
      (List.range' idx (min (idx + count) num_files - idx),
        min (idx + count) num_files) := by
  induction count generalizing idx with
  | zero =>
      simp [buildRow, Nat.min_eq_left h]
  | succ c ih =>
      by_cases hlt : idx < num_files
      · have h1 : idx + 1 ≤ num_files := hlt
        have hmin : min (idx + 1 + c) num_files = min (idx + (c + 1)) num_files := by omega
        simp only [buildRow, if_pos hlt, ih (idx + 1) h1, hmin]
        rw [show min (idx + (c + 1)) num_files - idx
            = (min (idx + (c + 1)) num_files - (idx + 1)) + 1 by omega, List.range'_succ]
      · have hidx : idx = num_files := by omega
        rw [buildRow, if_neg hlt, buildRow_of_le c idx num_files (le_of_eq hidx.symm)]
        simp [hidx]

/-- Gluing two adjacent `range'` segments. -/
lemma range'_glue (s a b : ℕ) (hsa : s ≤ a) (hab : a ≤ b) :
    List.range' s (a - s) ++ List.range' a (b - a) = List.range' s (b - s) := by
  have h := List.range'_append_1 s (a - s) (b - a)
  rw [show s + (a - s) = a by omega, show b - a + (a - s) = b - s by omega] at h
  exact h

/-- The row-counts loop builds rows whose flattened contents are the
consecutive indices from `idx` to some `e ≤ num_files`. -/
lemma buildCounts_flatten (counts : List ℕ) (idx num_files : ℕ) (h : idx ≤ num_files) :
    ∃ e, idx ≤ e ∧ e ≤ num_files ∧
      (buildCounts counts idx num_files).flatten = List.range' idx (e - idx) := by
  induction counts generalizing idx with
  | nil => exact ⟨idx, le_refl idx, h, by simp [buildCounts]⟩
  | cons c rest ih =>
      have hm1 : idx ≤ min (idx + c) num_files := by omega
      have hm2 : min (idx + c) num_files ≤ num_files := by omega
      obtain ⟨e, he1, he2, he3⟩ := ih (min (idx + c) num_files) hm2
      refine ⟨e, by omega, he2, ?_⟩
      simp only [buildCounts, buildRow_eq c idx num_files h]
      by_cases hempty : min (idx + c) num_files - idx = 0
      · have heq : min (idx + c) num_files = idx := by omega
        rw [heq]
        rw [heq] at he3
        simp only [Nat.sub_self] at he3 ⊢
        exact he3
      · rw [if_neg (by simp [List.isEmpty_iff, List.range'_eq_nil, hempty])]
        simp only [List.flatten_cons, he3]
        exact range'_glue idx (min (idx + c) num_files) e hm1 he1

/-- The grid loop is the row-counts loop on `rows` copies of `cols`. -/
lemma buildGrid_eq_buildCounts (rows cols idx num_files : ℕ) :
    buildGrid rows cols idx num_files =
      buildCounts (List.replicate rows cols) idx num_files := by
  induction rows generalizing idx with
  | zero => rfl
  | succ r ih => simp only [buildGrid, List.replicate_succ, buildCounts, ih]

/-- Whatever branch fires, the structure before recovery holds the
indices `0, ..., e-1` in order, for some `e ≤ num_files`. -/
lemma parseCore_flatten (layout_str : List Char) (num_files : ℕ) :
    ∃ e, e ≤ num_files ∧ (parseCore layout_str num_files).flatten = List.range e := by
  have hz : (0 : ℕ) ≤ num_files := Nat.zero_le _
  unfold parseCore
  split
  · split
    · split
      · rename_i cols rows _ _
        rw [buildGrid_eq_buildCounts]
        obtain ⟨e, -, he2, he3⟩ :=
          buildCounts_flatten (List.replicate rows.toNat cols.toNat) 0 num_files hz
        exact ⟨e, he2, by simpa [List.range_eq_range'] using he3⟩
      · exact ⟨0, hz, by simp⟩
    · exact ⟨0, hz, by simp⟩
  · split
    · obtain ⟨e, -, he2, he3⟩ :=
        buildCounts_flatten (((splitOnChar _ layout_str).map tokenCount)) 0 num_files hz
      exact ⟨e, he2, by simpa [List.range_eq_range'] using he3⟩
    · split
      · exact ⟨min (digitsToNat layout_str) num_files, Nat.min_le_right _ _, by simp⟩
      · exact ⟨min layout_str.length num_files, Nat.min_le_right _ _, by simp⟩

/-- `parse_layout_structure` always returns a structure whose rows,
flattened, are exactly `0, ..., num_files - 1` in ascending order. -/
lemma parse_layout_structure_flatten (layout_str : List Char) (num_files : ℕ) :
    (parse_layout_structure layout_str num_files).flatten = List.range num_files := by
  obtain ⟨e, he, hflat⟩ := parseCore_flatten layout_str num_files
  have hsum : ((parseCore layout_str num_files).map List.length).sum = e := by
    rw [← List.length_flatten, hflat, List.length_range]
  simp only [parse_layout_structure]
  rw [hsum]
  by_cases hlt : e < num_files
  · rw [if_pos hlt]
    rw [List.flatten_append, hflat]
    simp only [List.flatten_cons, List.flatten_nil, List.append_nil]
    rw [List.range_eq_range', List.range_eq_range']
    simpa using range'_glue 0 e num_files (Nat.zero_le e) (le_of_lt hlt)
  · rw [if_neg hlt]
    have hen : e = num_files := by omega
    rw [hflat, hen]

/-- Every index placed by the parser is in range. -/
lemma parse_mem_lt (layout_str : List Char) (num_files : ℕ) {row : List ℕ} {i : ℕ}
    (hrow : row ∈ parse_layout_structure layout_str num_files) (hi : i ∈ row) :
    i < num_files := by
  have : i ∈ (parse_layout_structure layout_str num_files).flatten :=
    List.mem_flatten.mpr ⟨row, hrow, hi⟩
  rw [parse_layout_structure_flatten] at this
  exact List.mem_range.mp this

/-- C1: for every count `num_files` of inputs and every layout
descriptor, the structure returned by `parse_layout_structure`
contains every index in `{0, ..., num_files - 1}` exactly once across
all rows combined — flattened in ascending order, so no index is
missing, duplicated, or out of range, and the recovery row appends the
unplaced indices in ascending order. -/
theorem parse_layout_structure_covers_every_index_once
    (layout_str : List Char) (num_files : ℕ) :
    (parse_layout_structure layout_str num_files).flatten = List.range num_files :=
  parse_layout_structure_flatten layout_str num_files

/-! ## Concrete descriptor claims (C8, C9) -/

/-- C8: the grid form fills a `cols`-wide, `rows`-tall grid in
row-major order with as many of the `num_files` indices as fit,
omitting rows with zero filled cells: `"2x2"` with 4 inputs gives
`[[0,1],[2,3]]`, with 3 inputs `[[0,1],[2]]`. -/
theorem grid_form_fills_row_major_and_omits_empty_rows :
    parse_layout_structure ['2', 'x', '2'] 4 = [[0, 1], [2, 3]] ∧
      parse_layout_structure ['2', 'x', '2'] 3 = [[0, 1], [2]] := by
  decide

/-- C9: in the row-counts form an all-digit token counts by value and
any other token by character length, so `"2,1"` and `"AB-C"` with 3
inputs both yield `[[0,1],[2]]`, indices assigned consecutively in
token order. -/
theorem row_counts_form_value_or_length :
    tokenCount ['2'] = 2 ∧ tokenCount ['A', 'B'] = 2 ∧ tokenCount ['C'] = 1 ∧
      parse_layout_structure ['2', ',', '1'] 3 = [[0, 1], [2]] ∧
      parse_layout_structure ['A', 'B', '-', 'C'] 3 = [[0, 1], [2]] := by
  decide

/-! ## C2: division by zero -/

/-- The constructor's defaults: `page_width=180`, `page_height=None`,
`margin=5`, `spacing=3`, `label_size=12`. -/
def cfgDefault : Config := mkPanelGenerator 180 none 5 3 12

/-- The extractor's fallback metric for an unreadable input. -/
def fallbackMetric : Metric := { width := 100, height := 100, ratio := 1, path := "bad.pdf" }

/-- C2 counterexample: the descriptor `"0"` with one input parses to
`[[], [0]]`, whose first row is empty; `calculate_layout` then executes
`panel_w = avail_w / num_panels` with `num_panels = 0` and the run
raises `ZeroDivisionError` (modelled as `none`), although the metrics
list is the extractor's own fallback (ratio 1.0). -/
theorem calculate_layout_divides_by_zero_on_empty_row :
    parse_layout_structure ['0'] 1 = [[], [0]] ∧
      calculate_layoutChecked cfgDefault (parse_layout_structure ['0'] 1)
        [fallbackMetric] = none := by
  decide

/-- A bound `Option` computation succeeds when both stages do. -/
lemma isSome_bind {α β : Type} {o : Option α} {f : α → Option β}
    (ho : o.isSome) (hf : ∀ a, (f a).isSome) : (o >>= f).isSome := by
  obtain ⟨a, ha⟩ := Option.isSome_iff_exists.mp ho
  rw [ha]
  exact hf a

/-- The `required_height` loop completes when every ratio it divides by
is nonzero. -/
lemma foldlM_max_pyDiv_isSome (w : ℚ) (metrics : List Metric) (row : List ℕ)
    (hr : ∀ i ∈ row, (metricAt metrics i).ratio ≠ 0) (acc : ℚ) :
    (row.foldlM
      (fun acc i => do
        let h ← pyDiv w (metricAt metrics i).ratio
        pure (max acc h))
      acc).isSome := by
  induction row generalizing acc with
  | nil => rfl
  | cons j rest ih =>
      have hj : (metricAt metrics j).ratio ≠ 0 := hr j (List.mem_cons_self j rest)
      rw [List.foldlM_cons, pyDiv, if_neg hj]
      exact ih (fun i hi => hr i (List.mem_cons_of_mem j hi)) _

/-- A row's checked ideal height exists when the row is nonempty and
its ratios are nonzero. -/
lemma rowIdealHeightChecked_isSome (cfg : Config) (metrics : List Metric) (row : List ℕ)
    (hne : row ≠ []) (hr : ∀ i ∈ row, (metricAt metrics i).ratio ≠ 0) :
    (rowIdealHeightChecked cfg metrics row).isSome := by
  have hlen : ((row.length : ℚ)) ≠ 0 :=
    Nat.cast_ne_zero.mpr (by simpa using hne)
  unfold rowIdealHeightChecked
  rw [pyDiv, if_neg hlen]
  refine isSome_bind (by rfl) fun panel_w => ?_
  dsimp only
  exact isSome_bind (foldlM_max_pyDiv_isSome panel_w metrics row hr 0) fun required => rfl

/-- `List.mapM.loop` over `Option` succeeds when every element does. -/
lemma mapM_loop_isSome {α β : Type} (f : α → Option β) (l : List α)
    (h : ∀ a ∈ l, (f a).isSome) (acc : List β) :
    (List.mapM.loop f l acc).isSome := by
  induction l generalizing acc with
  | nil => rfl
  | cons a rest ih =>
      obtain ⟨b, hb⟩ := Option.isSome_iff_exists.mp (h a (List.mem_cons_self a rest))
      rw [List.mapM.loop, hb]
      exact ih (fun x hx => h x (List.mem_cons_of_mem a hx)) _

/-- `mapM` over `Option` succeeds when every element does. -/
lemma mapM_isSome {α β : Type} (f : α → Option β) (l : List α)
    (h : ∀ a ∈ l, (f a).isSome) : (l.mapM f).isSome :=
  mapM_loop_isSome f l h []

/-- The placement pass completes when every row it lays out is
nonempty. -/
lemma placeRowsChecked_isSome (cfg : Config) (metrics : List Metric)
    (rs : List (List ℕ × ℚ)) (h : ∀ p ∈ rs, p.1 ≠ []) (y : ℚ) :
    (placeRowsChecked cfg metrics rs y).isSome := by
  induction rs generalizing y with
  | nil => rfl
  | cons p rest ih =>
      obtain ⟨row, hrow⟩ := p
      have hne : row ≠ [] := h (row, hrow) (List.mem_cons_self _ _)
      have hlen : ((row.length : ℚ)) ≠ 0 :=
        Nat.cast_ne_zero.mpr (by simpa using hne)
      rw [placeRowsChecked, pyDiv, if_neg hlen]
      refine isSome_bind (by rfl) fun panel_w => ?_
      dsimp only
      exact isSome_bind (ih (fun q hq => h q (List.mem_cons_of_mem _ hq)) _) fun more => rfl

/-- C2 (amended): for every layout descriptor whose parsed structure
contains only nonempty rows, and every extractor-length metrics list
whose ratios are all nonzero (which the extractor guarantees whenever
source pages have positive width, and its fallback has ratio 1.0),
`calculate_layout` performs no division by zero: neither the per-panel
width division by the number of panels in a row nor the per-panel
height division by a ratio has a zero divisor, and the run completes. -/
theorem calculate_layout_no_division_by_zero (cfg : Config) (layout_str : List Char)
    (num_files : ℕ) (metrics : List Metric)
    (hlen : metrics.length = num_files)
    (hr : ∀ m ∈ metrics, m.ratio ≠ 0)
    (hrows : ∀ row ∈ parse_layout_structure layout_str num_files, row ≠ []) :
    (calculate_layoutChecked cfg
      (parse_layout_structure layout_str num_files) metrics).isSome := by
  have hused : ∀ row ∈ parse_layout_structure layout_str num_files,
      ∀ i ∈ row, (metricAt metrics i).ratio ≠ 0 := by
    intro row hrow i hi
    have hilt : i < metrics.length := by
      rw [hlen]; exact parse_mem_lt layout_str num_files hrow hi
    rw [metricAt, List.getD_eq_getElem _ _ hilt]
    exact hr _ (List.getElem_mem hilt)
  unfold calculate_layoutChecked
  refine isSome_bind (mapM_isSome _ _ fun row hrow =>
    rowIdealHeightChecked_isSome cfg metrics row (hrows row hrow) (hused row hrow))
    fun ideals => ?_
  dsimp only
  refine isSome_bind (placeRowsChecked_isSome cfg metrics _
    (fun p hp => hrows p.1 (List.of_mem_zip hp).1) cfg.margin) fun panels => rfl

/-- C2 witness: a concrete run (descriptor `"2,1"`, three fallback
metrics, default configuration) satisfies every hypothesis and
completes without a zero divisor. -/
theorem calculate_layout_no_division_by_zero_witness :
    (calculate_layoutChecked cfgDefault
      (parse_layout_structure ['2', ',', '1'] 3)
      [fallbackMetric, fallbackMetric, fallbackMetric]).isSome :=
  calculate_layout_no_division_by_zero cfgDefault ['2', ',', '1'] 3
    [fallbackMetric, fallbackMetric, fallbackMetric]
    (by decide) (by decide) (by decide)

/-! ## `foldl max` facts for the `required_height` loop -/

/-- The running maximum never drops below its start. -/
lemma le_foldl_max (l : List ℚ) (a : ℚ) : a ≤ l.foldl max a := by
  induction l generalizing a with
  | nil => exact le_refl a
  | cons x l ih => exact le_trans (le_max_left a x) (ih (max a x))

/-- The running maximum is the start or one of the elements. -/
lemma foldl_max_mem (l : List ℚ) (a : ℚ) :
    l.foldl max a = a ∨ l.foldl max a ∈ l := by
  induction l generalizing a with
  | nil => exact Or.inl rfl
  | cons x l ih =>
      rcases ih (max a x) with h | h
      · rcases max_choice a x with hax | hax
        · exact Or.inl (by rw [List.foldl_cons, h, hax])
        · exact Or.inr (by rw [List.foldl_cons, h, hax]; exact List.mem_cons_self x l)
      · exact Or.inr (List.mem_cons_of_mem x h)

/-- Every element is bounded by the running maximum. -/
lemma mem_le_foldl_max (l : List ℚ) (a : ℚ) {y : ℚ} (hy : y ∈ l) :
    y ≤ l.foldl max a := by
  induction l generalizing a with
  | nil => cases hy
  | cons x l ih =>
      rcases List.mem_cons.mp hy with h | h
      · subst h
        exact le_trans (le_max_right a y) (le_foldl_max l (max a y))
      · exact ih (max a x) h

/-- The `required_height` loop is a `foldl max` over the mapped
heights. -/
lemma rowRequiredHeight_eq_foldl (cfg : Config) (metrics : List Metric) (row : List ℕ) :
    rowRequiredHeight cfg metrics row =
      ((row.map fun i => rowPanelWidth cfg row / (metricAt metrics i).ratio).foldl max 0) := by
  unfold rowRequiredHeight
  exact (List.foldl_map _ _ _ _).symm

/-- `required_height` is never negative (the loop starts at 0). -/
lemma rowRequiredHeight_nonneg (cfg : Config) (metrics : List Metric) (row : List ℕ) :
    0 ≤ rowRequiredHeight cfg metrics row := by
  rw [rowRequiredHeight_eq_foldl]
  exact le_foldl_max _ 0

/-- Each ideal row height is positive for a non-negative label size. -/
lemma rowIdealHeight_pos (cfg : Config) (metrics : List Metric) (row : List ℕ)
    (hl : 0 ≤ cfg.label_size) : 0 < rowIdealHeight cfg metrics row := by
  have h := rowRequiredHeight_nonneg cfg metrics row
  unfold rowIdealHeight
  linarith

/-- Sum of a right-scaled list. -/
lemma sum_map_mul (l : List ℚ) (c : ℚ) : (l.map (· * c)).sum = l.sum * c := by
  induction l with
  | nil => simp
  | cons x l ih => simp [ih, add_mul]

/-! ## C4: the ideal row height is the max over the row -/

/-- C4: for every nonempty row with positive aspect ratios and a
non-negative shared panel width `w`, the ideal row height computed by
`calculate_layout` equals `max_i (w / r_i) + label_size + 4` (the fixed
internal padding), the maximum being attained at some panel of the
row; a single-panel row takes the maximum over its own ratio alone. -/
theorem row_ideal_height_is_max_over_row (cfg : Config) (metrics : List Metric)
    (row : List ℕ) (hne : row ≠ [])
    (hr : ∀ i ∈ row, 0 < (metricAt metrics i).ratio)
    (hw : 0 ≤ rowPanelWidth cfg row) :
    ∃ i ∈ row,
      rowIdealHeight cfg metrics row
          = rowPanelWidth cfg row / (metricAt metrics i).ratio + cfg.label_size + 4 ∧
        ∀ j ∈ row, rowPanelWidth cfg row / (metricAt metrics j).ratio
          ≤ rowPanelWidth cfg row / (metricAt metrics i).ratio := by
  have hfold := rowRequiredHeight_eq_foldl cfg metrics row
  rcases foldl_max_mem
      (row.map fun i => rowPanelWidth cfg row / (metricAt metrics i).ratio) 0 with hz | hm
  · -- the loop result is its start 0: every height is 0
    obtain ⟨i0, hi0⟩ := List.exists_mem_of_ne_nil row hne
    have hall : ∀ j ∈ row, rowPanelWidth cfg row / (metricAt metrics j).ratio = 0 := by
      intro j hj
      have hle : rowPanelWidth cfg row / (metricAt metrics j).ratio ≤ 0 := by
        rw [← hz]
        exact mem_le_foldl_max _ 0 (List.mem_map_of_mem _ hj)
      have hge : 0 ≤ rowPanelWidth cfg row / (metricAt metrics j).ratio :=
        div_nonneg hw (le_of_lt (hr j hj))
      linarith
    refine ⟨i0, hi0, ?_, ?_⟩
    · rw [rowIdealHeight, hfold, hz, hall i0 hi0]
    · intro j hj
      rw [hall j hj, hall i0 hi0]
  · -- the loop result is attained at some element
    obtain ⟨i, hi, hieq⟩ := List.mem_map.mp hm
    refine ⟨i, hi, ?_, ?_⟩
    · rw [rowIdealHeight, hfold, hieq]
    · intro j hj
      rw [hieq, ← hfold]
      rw [hfold]
      exact mem_le_foldl_max _ 0 (List.mem_map_of_mem _ hj)

/-- C4 witness: a concrete two-panel row (ratios 1 and 2) satisfies the
hypotheses and its ideal height is the attained maximum. -/
theorem row_ideal_height_is_max_over_row_witness :
    ∃ i ∈ [0, 1],
      rowIdealHeight cfgDefault [⟨100, 100, 1, "a"⟩, ⟨200, 100, 2, "b"⟩] [0, 1]
          = rowPanelWidth cfgDefault [0, 1]
              / (metricAt [⟨100, 100, 1, "a"⟩, ⟨200, 100, 2, "b"⟩] i).ratio
            + cfgDefault.label_size + 4 ∧
        ∀ j ∈ [0, 1], rowPanelWidth cfgDefault [0, 1]
              / (metricAt [⟨100, 100, 1, "a"⟩, ⟨200, 100, 2, "b"⟩] j).ratio
            ≤ rowPanelWidth cfgDefault [0, 1]
              / (metricAt [⟨100, 100, 1, "a"⟩, ⟨200, 100, 2, "b"⟩] i).ratio :=
  row_ideal_height_is_max_over_row cfgDefault [⟨100, 100, 1, "a"⟩, ⟨200, 100, 2, "b"⟩]
    [0, 1] (by decide)
    (by norm_num [metricAt])
    (by norm_num [rowPanelWidth, rowAvailWidth, cfgDefault, mkPanelGenerator, mm])

/-! ## C3: uniform scaling under a fixed page height -/

/-- The default configuration with a fixed page height of 100 mm. -/
def cfgFixed : Config := mkPanelGenerator 180 (some 100) 5 3 12

/-- A square 100×100 metric. -/
def squareMetric : Metric := { width := 100, height := 100, ratio := 1, path := "a.pdf" }

/-- C3 counterexample: with a fixed page height of 100 mm and one
square panel, the sum of the scaled row heights plus inter-row spacing
plus `2 × margin` equals the configured *page* height (100 mm in
points), which differs from the configured *usable* height
(`final_usable_height`, 90 mm in points here): the claim's equation
against the usable height is false. -/
theorem scaled_heights_sum_not_usable_height :
    fixedHeightMM cfgFixed ≠ 0 ∧ ([[0]] : List (List ℕ)) ≠ [] ∧
      (actualRowHeights cfgFixed [squareMetric] [[0]]).sum
          + ((([[0]] : List (List ℕ)).length : ℚ) - 1) * cfgFixed.spacing
          + 2 * cfgFixed.margin
        ≠ finalUsableHeight cfgFixed [squareMetric] [[0]] := by
  norm_num [actualRowHeights, rowIdealHeights, rowIdealHeight, rowRequiredHeight,
    rowPanelWidth, rowAvailWidth, metricAt, scaleFactor, finalUsableHeight,
    finalPageHeight, totalIdealHeight, fixedHeightMM, cfgFixed, mkPanelGenerator,
    squareMetric, mm]

/-- C3 (amended): whenever a fixed page height `H ≠ 0` is configured,
the structure is nonempty and the label size is non-negative (so the
ideal heights sum is positive), every row's ideal height is multiplied
by the single uniform factor
`final_usable_height / sum(row_ideal_heights)`, and the sum of the
final scaled row heights plus the inter-row spacing plus `2 × margin`
equals the configured page height `H * mm` (exactly, over `ℚ`). -/
theorem fixed_height_scales_rows_uniformly (cfg : Config) (metrics : List Metric)
    (struct : List (List ℕ)) (H : ℚ)
    (hH : cfg.page_height_mm = some H) (hH0 : H ≠ 0)
    (hne : struct ≠ []) (hl : 0 ≤ cfg.label_size) :
    actualRowHeights cfg metrics struct =
        (rowIdealHeights cfg metrics struct).map
          (· * (finalUsableHeight cfg metrics struct
            / (rowIdealHeights cfg metrics struct).sum)) ∧
      (actualRowHeights cfg metrics struct).sum
          + ((struct.length : ℚ) - 1) * cfg.spacing + 2 * cfg.margin
        = H * mm := by
  have hfix : fixedHeightMM cfg = H := by simp [fixedHeightMM, hH]
  have hfixne : fixedHeightMM cfg ≠ 0 := by rw [hfix]; exact hH0
  have hsum : 0 < (rowIdealHeights cfg metrics struct).sum := by
    apply List.sum_pos
    · intro x hx
      obtain ⟨row, -, hrow⟩ := List.mem_map.mp hx
      rw [← hrow]
      exact rowIdealHeight_pos cfg metrics row hl
    · simpa [rowIdealHeights] using hne
  have hscale : scaleFactor cfg metrics struct
      = finalUsableHeight cfg metrics struct / (rowIdealHeights cfg metrics struct).sum := by
    rw [scaleFactor, if_pos hsum]
  have hactual : actualRowHeights cfg metrics struct =
      (rowIdealHeights cfg metrics struct).map
        (· * (finalUsableHeight cfg metrics struct
          / (rowIdealHeights cfg metrics struct).sum)) := by
    rw [actualRowHeights, if_pos hfixne, hscale]
  refine ⟨hactual, ?_⟩
  rw [hactual, sum_map_mul, mul_comm, div_mul_cancel₀ _ (ne_of_gt hsum)]
  have hpage : finalPageHeight cfg metrics struct = H * mm := by
    rw [finalPageHeight, if_pos hfixne, hfix]
  rw [finalUsableHeight, hpage]
  ring

/-- C3 witness: the concrete fixed-height run satisfies every
hypothesis, scales its single row uniformly, and totals 100 mm. -/
theorem fixed_height_scales_rows_uniformly_witness :
    actualRowHeights cfgFixed [squareMetric] [[0]] =
        (rowIdealHeights cfgFixed [squareMetric] [[0]]).map
          (· * (finalUsableHeight cfgFixed [squareMetric] [[0]]
            / (rowIdealHeights cfgFixed [squareMetric] [[0]]).sum)) ∧
      (actualRowHeights cfgFixed [squareMetric] [[0]]).sum
          + ((([[0]] : List (List ℕ)).length : ℚ) - 1) * cfgFixed.spacing
          + 2 * cfgFixed.margin
        = 100 * mm :=
  fixed_height_scales_rows_uniformly cfgFixed [squareMetric] [[0]] 100
    rfl (by norm_num) (by decide) (by norm_num [cfgFixed, mkPanelGenerator])

/-! ## C6: the empty structure -/

/-- C6 counterexample: with the default configuration (no fixed page
height, margin 5 mm, spacing 3 mm) and an empty structure, the panel
list is empty as claimed but the page height is
`2 * margin - spacing` (7 mm in points), not `2 * margin` (10 mm):
the `(len(structure) - 1) * spacing` term contributes `-spacing`. -/
theorem empty_structure_height_not_margins_only :
    (calculate_layout cfgDefault [] []).panels = [] ∧
      (calculate_layout cfgDefault [] []).page_height ≠ 2 * cfgDefault.margin := by
  refine ⟨rfl, ?_⟩
  show finalPageHeight cfgDefault [] [] ≠ 2 * cfgDefault.margin
  norm_num [finalPageHeight, totalIdealHeight, rowIdealHeights, fixedHeightMM,
    cfgDefault, mkPanelGenerator, mm]

/-- C6 (amended): with no fixed page height configured (`None` or
`0.0`, both falsy), a zero-row structure yields an empty panel list and
a page height of `2 * margin - spacing` — the margins plus the
`-spacing` fencepost of the `(len(structure) - 1) * spacing` term. -/
theorem empty_structure_empty_result (cfg : Config) (metrics : List Metric)
    (hfix : fixedHeightMM cfg = 0) :
    (calculate_layout cfg [] metrics).panels = [] ∧
      (calculate_layout cfg [] metrics).page_height
        = 2 * cfg.margin - cfg.spacing := by
  constructor
  · rfl
  · show finalPageHeight cfg metrics [] = 2 * cfg.margin - cfg.spacing
    rw [finalPageHeight, if_neg (by simp [hfix])]
    show (rowIdealHeights cfg metrics []).sum
        + (((List.length ([] : List (List ℕ))) : ℚ) - 1) * cfg.spacing + 2 * cfg.margin
      = 2 * cfg.margin - cfg.spacing
    simp only [rowIdealHeights, List.map_nil, List.sum_nil, List.length_nil,
      Nat.cast_zero]
    ring

/-- C6 witness: the default (auto-height) configuration has a falsy
page height and exhibits the amended behaviour. -/
theorem empty_structure_empty_result_witness :
    (calculate_layout cfgDefault [] []).panels = [] ∧
      (calculate_layout cfgDefault [] []).page_height
        = 2 * cfgDefault.margin - cfgDefault.spacing :=
  empty_structure_empty_result cfgDefault [] rfl

/-! ## Placement lemmas -/

/-- Each placement of one row carries an index of the row, the row's
shared width `w`, and the row's vertical extent `[y, y + h]`. -/
lemma placeRowPanels_mem (cfg : Config) (metrics : List Metric) (h y : ℚ)
    (row : List ℕ) (x w : ℚ) {p : PanelPlacement}
    (hp : p ∈ placeRowPanels cfg metrics h y row x w) :
    p.index ∈ row ∧ p.rect.x1 - p.rect.x0 = w ∧ p.rect.y0 = y ∧ p.rect.y1 = y + h := by
  induction row generalizing x with
  | nil => cases hp
  | cons i rest ih =>
      rw [placeRowPanels] at hp
      rcases List.mem_cons.mp hp with hp0 | hp1
      · subst hp0
        exact ⟨List.mem_cons_self _ _, by ring, rfl, rfl⟩
      · obtain ⟨hi, hrest⟩ := ih _ hp1
        exact ⟨List.mem_cons_of_mem _ hi, hrest⟩

/-- Each placement of the full pass comes from one of the zipped rows,
laid out from `current_x = margin` at that row's shared panel width. -/
lemma placeRows_mem (cfg : Config) (metrics : List Metric)
    (rs : List (List ℕ × ℚ)) (y : ℚ) {p : PanelPlacement}
    (hp : p ∈ placeRows cfg metrics rs y) :
    ∃ row hgt, (row, hgt) ∈ rs ∧ ∃ y0 : ℚ,
      p ∈ placeRowPanels cfg metrics hgt y0 row cfg.margin (rowPanelWidth cfg row) := by
  induction rs generalizing y with
  | nil => cases hp
  | cons q rest ih =>
      obtain ⟨row, hgt⟩ := q
      rw [placeRows] at hp
      rcases List.mem_append.mp hp with h1 | h2
      · exact ⟨row, hgt, List.mem_cons_self _ _, y, h1⟩
      · obtain ⟨row', hgt', hq', y0, hmem⟩ := ih _ h2
        exact ⟨row', hgt', List.mem_cons_of_mem _ hq', y0, hmem⟩

/-- In a structure whose flattened indices have no duplicate, an index
determines its row. -/
lemma nodup_flatten_unique_row {L : List (List ℕ)} (hnd : L.flatten.Nodup)
    {r1 r2 : List ℕ} (h1 : r1 ∈ L) (h2 : r2 ∈ L) {i : ℕ}
    (hi1 : i ∈ r1) (hi2 : i ∈ r2) : r1 = r2 := by
  induction L with
  | nil => cases h1
  | cons r rest ih =>
      rw [List.flatten_cons] at hnd
      obtain ⟨-, hnd2, hdisj⟩ := List.nodup_append.mp hnd
      rcases List.mem_cons.mp h1 with e1 | m1 <;> rcases List.mem_cons.mp h2 with e2 | m2
      · rw [e1, e2]
      · exact absurd (List.mem_flatten.mpr ⟨r2, m2, hi2⟩) (hdisj (e1 ▸ hi1))
      · exact absurd (List.mem_flatten.mpr ⟨r1, m1, hi1⟩) (hdisj (e2 ▸ hi2))
      · exact ih hnd2 m1 m2

/-- `actual_row_heights` has one entry per row. -/
lemma actualRowHeights_length (cfg : Config) (metrics : List Metric)
    (struct : List (List ℕ)) :
    (actualRowHeights cfg metrics struct).length = struct.length := by
  unfold actualRowHeights
  split <;> simp [rowIdealHeights]

/-! ## C5: equal widths within a row -/

/-- C5: in a structure without duplicated indices (as the parser
guarantees), every placed panel whose index belongs to a row has width
`(usable_width - (count - 1) * spacing) / count` for that row's count,
and the ideal-height computation uses the same shared width for every
panel of the row. -/
theorem panels_in_row_share_width (cfg : Config) (metrics : List Metric)
    (struct : List (List ℕ)) (hnd : struct.flatten.Nodup)
    (row : List ℕ) (hrow : row ∈ struct) :
    (∀ p ∈ (calculate_layout cfg struct metrics).panels, p.index ∈ row →
        p.rect.x1 - p.rect.x0
          = (cfg.usable_width - ((row.length : ℚ) - 1) * cfg.spacing)
            / (row.length : ℚ)) ∧
      rowIdealHeight cfg metrics row
        = (row.map fun i =>
              ((cfg.usable_width - ((row.length : ℚ) - 1) * cfg.spacing)
                / (row.length : ℚ)) / (metricAt metrics i).ratio).foldl max 0
            + cfg.label_size + 4 := by
  constructor
  · intro p hp hpi
    obtain ⟨row', hgt', hq, y0, hmem⟩ := placeRows_mem cfg metrics _ cfg.margin hp
    obtain ⟨hidx, hwidth, -, -⟩ := placeRowPanels_mem cfg metrics hgt' y0 row' cfg.margin _ hmem
    have hrow' : row' ∈ struct := (List.of_mem_zip hq).1
    have heq : row' = row := nodup_flatten_unique_row hnd hrow' hrow hidx hpi
    rw [hwidth, heq, rowPanelWidth, rowAvailWidth]
  · rw [rowIdealHeight, rowRequiredHeight_eq_foldl]
    simp only [rowPanelWidth, rowAvailWidth]

/-- C5 witness: the parsed structure `[[0,1],[2]]` with three square
metrics exhibits equal widths in its first row. -/
theorem panels_in_row_share_width_witness :
    (∀ p ∈ (calculate_layout cfgDefault [[0, 1], [2]]
        [squareMetric, squareMetric, squareMetric]).panels, p.index ∈ [0, 1] →
        p.rect.x1 - p.rect.x0
          = (cfgDefault.usable_width - ((([0, 1] : List ℕ).length : ℚ) - 1)
              * cfgDefault.spacing) / ((([0, 1] : List ℕ).length : ℚ))) ∧
      rowIdealHeight cfgDefault [squareMetric, squareMetric, squareMetric] [0, 1]
        = (([0, 1] : List ℕ).map fun i =>
              ((cfgDefault.usable_width - ((([0, 1] : List ℕ).length : ℚ) - 1)
                * cfgDefault.spacing) / ((([0, 1] : List ℕ).length : ℚ)))
                / (metricAt [squareMetric, squareMetric, squareMetric] i).ratio).foldl max 0
            + cfgDefault.label_size + 4 :=
  panels_in_row_share_width cfgDefault [squareMetric, squareMetric, squareMetric]
    [[0, 1], [2]] (by decide) [0, 1] (by decide)

/-! ## C7: extractor fallback and end-to-end placement -/

/-- The indices laid out for one row are the row itself. -/
lemma placeRowPanels_map_index (cfg : Config) (metrics : List Metric) (h y : ℚ)
    (row : List ℕ) (x w : ℚ) :
    (placeRowPanels cfg metrics h y row x w).map PanelPlacement.index = row := by
  induction row generalizing x with
  | nil => rfl
  | cons i rest ih =>
      rw [placeRowPanels]
      simp only [List.map_cons, ih]

/-- The indices laid out by the full pass are the rows' indices in
order. -/
lemma placeRows_map_index (cfg : Config) (metrics : List Metric)
    (rs : List (List ℕ × ℚ)) (y : ℚ) :
    (placeRows cfg metrics rs y).map PanelPlacement.index
      = (rs.map Prod.fst).flatten := by
  induction rs generalizing y with
  | nil => rfl
  | cons q rest ih =>
      obtain ⟨row, hgt⟩ := q
      rw [placeRows]
      simp only [List.map_append, placeRowPanels_map_index, ih, List.map_cons,
        List.flatten_cons]

/-- `calculate_layout` emits exactly the structure's indices, in
order. -/
lemma calculate_layout_map_index (cfg : Config) (struct : List (List ℕ))
    (metrics : List Metric) :
    (calculate_layout cfg struct metrics).panels.map PanelPlacement.index
      = struct.flatten := by
  show (placeRows cfg metrics (struct.zip (actualRowHeights cfg metrics struct))
      cfg.margin).map PanelPlacement.index = struct.flatten
  rw [placeRows_map_index, List.map_fst_zip]
  exact le_of_eq (actualRowHeights_length cfg metrics struct).symm

/-- C7: the metrics extractor returns one metric per input in input
order; a failing read yields the fallback `{width 100, height 100,
ratio 1}` for exactly that input without aborting; and in any run whose
parsed structure has no empty row (so the geometry pass completes), the
final result still contains a placement for every index, failing reads
included. -/
theorem extractor_fallback_keeps_every_input
    (env : String → Option (ℚ × ℚ)) (file_paths : List String)
    (layout_str : List Char) (cfg : Config)
    (hrows : ∀ row ∈ parse_layout_structure layout_str file_paths.length, row ≠ []) :
    (get_pdf_metrics env file_paths).length = file_paths.length ∧
      (∀ k : ℕ, ((get_pdf_metrics env file_paths)[k]?).map Metric.path
        = file_paths[k]?) ∧
      (∀ (k : ℕ) (path0 : String), file_paths[k]? = some path0 → env path0 = none →
        (get_pdf_metrics env file_paths)[k]?
          = some { width := 100, height := 100, ratio := 1, path := path0 }) ∧
      (∀ k, k < file_paths.length →
        ∃ p ∈ (calculate_layout cfg
            (parse_layout_structure layout_str file_paths.length)
            (get_pdf_metrics env file_paths)).panels, p.index = k) := by
  have hlen : (get_pdf_metrics env file_paths).length = file_paths.length :=
    List.length_map _ _
  refine ⟨hlen, ?_, ?_, ?_⟩
  · intro k
    rw [get_pdf_metrics, List.getElem?_map]
    rcases hx : file_paths[k]? with - | p
    · rfl
    · rcases henv : env p with - | ⟨w, h⟩ <;> simp [henv]
  · intro k path0 hx henv
    rw [get_pdf_metrics, List.getElem?_map, hx]
    simp [henv]
  · intro k hk
    have hidx : k ∈ (calculate_layout cfg
        (parse_layout_structure layout_str file_paths.length)
        (get_pdf_metrics env file_paths)).panels.map PanelPlacement.index := by
      rw [calculate_layout_map_index, parse_layout_structure_flatten]
      exact List.mem_range.mpr hk
    obtain ⟨p, hp, hpk⟩ := List.mem_map.mp hidx
    exact ⟨p, hp, hpk⟩

/-- C7 witness: a run in which every read fails (all three inputs get
the fallback) still parses `"2,1"` into nonempty rows and places all
three indices. -/
theorem extractor_fallback_keeps_every_input_witness :
    (get_pdf_metrics (fun _ => none) ["a.pdf", "b.pdf", "c.pdf"]).length
        = (["a.pdf", "b.pdf", "c.pdf"] : List String).length ∧
      (∀ k : ℕ, ((get_pdf_metrics (fun _ => none) ["a.pdf", "b.pdf", "c.pdf"])[k]?).map
          Metric.path = (["a.pdf", "b.pdf", "c.pdf"] : List String)[k]?) ∧
      (∀ (k : ℕ) (path0 : String),
        (["a.pdf", "b.pdf", "c.pdf"] : List String)[k]? = some path0 →
        (fun _ => (none : Option (ℚ × ℚ))) path0 = none →
        (get_pdf_metrics (fun _ => none) ["a.pdf", "b.pdf", "c.pdf"])[k]?
          = some { width := 100, height := 100, ratio := 1, path := path0 }) ∧
      (∀ k, k < (["a.pdf", "b.pdf", "c.pdf"] : List String).length →
        ∃ p ∈ (calculate_layout cfgDefault
            (parse_layout_structure ['2', ',', '1']
              (["a.pdf", "b.pdf", "c.pdf"] : List String).length)
            (get_pdf_metrics (fun _ => none) ["a.pdf", "b.pdf", "c.pdf"])).panels,
          p.index = k) :=
  extractor_fallback_keeps_every_input (fun _ => none) ["a.pdf", "b.pdf", "c.pdf"]
    ['2', ',', '1'] cfgDefault (by decide)

/-! ## C10: pairwise disjoint placements, stacked rows -/

/-- The interiors of two rectangles meet: the open boxes
`(x0, x1) × (y0, y1)` have a common point. -/
def interiorsOverlap (a b : Rect) : Prop :=
  max a.x0 b.x0 < min a.x1 b.x1 ∧ max a.y0 b.y0 < min a.y1 b.y1

/-- Within a row, `current_x` never moves left of its start (for
non-negative width and spacing). -/
lemma placeRowPanels_x0_lb (cfg : Config) (metrics : List Metric) (h y : ℚ)
    (row : List ℕ) (x w : ℚ) (hw : 0 ≤ w) (hs : 0 ≤ cfg.spacing)
    {q : PanelPlacement} (hq : q ∈ placeRowPanels cfg metrics h y row x w) :
    x ≤ q.rect.x0 := by
  induction row generalizing x with
  | nil => cases hq
  | cons i rest ih =>
      rw [placeRowPanels] at hq
      rcases List.mem_cons.mp hq with h0 | h1
      · subst h0
        exact le_refl x
      · have hlb := ih (x + w + cfg.spacing) h1
        linarith

/-- Within a row, panels are laid out left to right: each earlier panel
ends at or before every later panel starts. -/
lemma placeRowPanels_pairwise_x (cfg : Config) (metrics : List Metric) (h y : ℚ)
    (row : List ℕ) (x w : ℚ) (hw : 0 ≤ w) (hs : 0 ≤ cfg.spacing) :
    (placeRowPanels cfg metrics h y row x w).Pairwise
      (fun p q => p.rect.x1 ≤ q.rect.x0) := by
  induction row generalizing x with
  | nil => exact List.Pairwise.nil
  | cons i rest ih =>
      rw [placeRowPanels]
      refine List.Pairwise.cons ?_ (ih (x + w + cfg.spacing))
      intro q hq
      have hlb := placeRowPanels_x0_lb cfg metrics h y rest (x + w + cfg.spacing) w hw hs hq
      show x + w ≤ q.rect.x0
      linarith

/-- Across rows, `current_y` never moves above its start (for
non-negative heights and spacing). -/
lemma placeRows_y0_lb (cfg : Config) (metrics : List Metric) (hs : 0 ≤ cfg.spacing) :
    ∀ (rs : List (List ℕ × ℚ)) (y : ℚ), (∀ q ∈ rs, 0 ≤ q.2) →
      ∀ p ∈ placeRows cfg metrics rs y, y ≤ p.rect.y0 := by
  intro rs
  induction rs with
  | nil =>
      intro y _ p hp
      cases hp
  | cons q rest ih =>
      intro y hh p hp
      obtain ⟨row, hgt⟩ := q
      rw [placeRows] at hp
      rcases List.mem_append.mp hp with h1 | h2
      · obtain ⟨-, -, hy0, -⟩ := placeRowPanels_mem cfg metrics hgt y row cfg.margin _ h1
        exact le_of_eq hy0.symm
      · have h0 : 0 ≤ hgt := hh (row, hgt) (List.mem_cons_self _ _)
        have hlb := ih (y + hgt + cfg.spacing)
          (fun q hq => hh q (List.mem_cons_of_mem _ hq)) p h2
        linarith

/-- The placements of the full pass are ordered: any later panel lies
entirely to the right of, or entirely below, any earlier one. -/
lemma placeRows_pairwise_separated (cfg : Config) (metrics : List Metric)
    (hs : 0 ≤ cfg.spacing) :
    ∀ (rs : List (List ℕ × ℚ)) (y : ℚ),
      (∀ q ∈ rs, 0 ≤ rowPanelWidth cfg q.1) → (∀ q ∈ rs, 0 ≤ q.2) →
      (placeRows cfg metrics rs y).Pairwise
        (fun p q => p.rect.x1 ≤ q.rect.x0 ∨ p.rect.y1 ≤ q.rect.y0) := by
  intro rs
  induction rs with
  | nil =>
      intro y _ _
      exact List.Pairwise.nil
  | cons q rest ih =>
      intro y hw hh
      obtain ⟨row, hgt⟩ := q
      rw [placeRows, List.pairwise_append]
      refine ⟨?_, ?_, ?_⟩
      · exact (placeRowPanels_pairwise_x cfg metrics hgt y row cfg.margin _
          (hw (row, hgt) (List.mem_cons_self _ _)) hs).imp (fun h => Or.inl h)
      · exact ih (y + hgt + cfg.spacing)
          (fun q hq => hw q (List.mem_cons_of_mem _ hq))
          (fun q hq => hh q (List.mem_cons_of_mem _ hq))
      · intro p hp q hq
        obtain ⟨-, -, -, hy1⟩ := placeRowPanels_mem cfg metrics hgt y row cfg.margin _ hp
        have hlb := placeRows_y0_lb cfg metrics hs rest (y + hgt + cfg.spacing)
          (fun r hr => hh r (List.mem_cons_of_mem _ hr)) q hq
        right
        rw [hy1]
        linarith

/-- Separation in one axis rules out an interior intersection. -/
lemma separated_not_overlap {p q : PanelPlacement}
    (h : p.rect.x1 ≤ q.rect.x0 ∨ p.rect.y1 ≤ q.rect.y0) :
    ¬ interiorsOverlap p.rect q.rect := by
  rcases h with h | h <;> rintro ⟨hx, hy⟩
  · have h1 : min p.rect.x1 q.rect.x1 ≤ p.rect.x1 := min_le_left _ _
    have h2 : q.rect.x0 ≤ max p.rect.x0 q.rect.x0 := le_max_right _ _
    linarith
  · have h1 : min p.rect.y1 q.rect.y1 ≤ p.rect.y1 := min_le_left _ _
    have h2 : q.rect.y0 ≤ max p.rect.y0 q.rect.y0 := le_max_right _ _
    linarith

/-- Every actual row height is non-negative when the label size is and
the configured usable height (if any) is positive. -/
lemma actualRowHeights_nonneg (cfg : Config) (metrics : List Metric)
    (struct : List (List ℕ)) (hl : 0 ≤ cfg.label_size)
    (hfix : fixedHeightMM cfg = 0 ∨ 0 < finalUsableHeight cfg metrics struct) :
    ∀ h ∈ actualRowHeights cfg metrics struct, 0 ≤ h := by
  intro h hmem
  rw [actualRowHeights] at hmem
  by_cases hc : fixedHeightMM cfg ≠ 0
  · rw [if_pos hc] at hmem
    obtain ⟨x, hx, hxh⟩ := List.mem_map.mp hmem
    obtain ⟨row, -, hrow⟩ := List.mem_map.mp hx
    have hxpos : 0 < x := hrow ▸ rowIdealHeight_pos cfg metrics row hl
    have hU : 0 < finalUsableHeight cfg metrics struct := by
      rcases hfix with h0 | h0
      · exact absurd h0 hc
      · exact h0
    have hscale : 0 ≤ scaleFactor cfg metrics struct := by
      rw [scaleFactor]
      split
      · exact div_nonneg (le_of_lt hU) (by linarith)
      · exact zero_le_one
    rw [← hxh]
    exact mul_nonneg (le_of_lt hxpos) hscale
  · rw [if_neg hc] at hmem
    obtain ⟨row, -, hrow⟩ := List.mem_map.mp hmem
    exact le_of_lt (hrow ▸ rowIdealHeight_pos cfg metrics row hl)

/-- C10 (amended): for every structure with nonempty rows and positive
aspect ratios, under non-negative spacing, margin, *label size* and
per-row panel widths, and either no fixed page height or a positive
fixed usable height: the placements are pairwise separated (each later
panel entirely to the right or entirely below an earlier one), their
interiors are pairwise disjoint, every placement sits at or beyond the
margin with exactly its row's shared width and actual row height, and
the first placement starts exactly at `(margin, margin)`. -/
theorem placements_disjoint_and_stacked (cfg : Config) (metrics : List Metric)
    (struct : List (List ℕ))
    (hrows : ∀ row ∈ struct, row ≠ [])
    (hrat : ∀ row ∈ struct, ∀ i ∈ row, 0 < (metricAt metrics i).ratio)
    (hs : 0 ≤ cfg.spacing) (hm : 0 ≤ cfg.margin) (hl : 0 ≤ cfg.label_size)
    (hw : ∀ row ∈ struct, 0 ≤ rowPanelWidth cfg row)
    (hfix : fixedHeightMM cfg = 0 ∨ 0 < finalUsableHeight cfg metrics struct) :
    ((calculate_layout cfg struct metrics).panels.Pairwise
        (fun p q => p.rect.x1 ≤ q.rect.x0 ∨ p.rect.y1 ≤ q.rect.y0)) ∧
      ((calculate_layout cfg struct metrics).panels.Pairwise
        (fun p q => ¬ interiorsOverlap p.rect q.rect)) ∧
      (∀ p ∈ (calculate_layout cfg struct metrics).panels,
        ∃ row hgt, (row, hgt) ∈ struct.zip (actualRowHeights cfg metrics struct) ∧
          p.index ∈ row ∧ p.rect.x1 - p.rect.x0 = rowPanelWidth cfg row ∧
          p.rect.y1 - p.rect.y0 = hgt ∧
          cfg.margin ≤ p.rect.x0 ∧ cfg.margin ≤ p.rect.y0) ∧
      (∀ p0, (calculate_layout cfg struct metrics).panels.head? = some p0 →
        p0.rect.x0 = cfg.margin ∧ p0.rect.y0 = cfg.margin) := by
  have hwz : ∀ q ∈ struct.zip (actualRowHeights cfg metrics struct),
      0 ≤ rowPanelWidth cfg q.1 := by
    intro q hq
    obtain ⟨qa, qb⟩ := q
    exact hw qa (List.of_mem_zip hq).1
  have hhz : ∀ q ∈ struct.zip (actualRowHeights cfg metrics struct), 0 ≤ q.2 := by
    intro q hq
    obtain ⟨qa, qb⟩ := q
    exact actualRowHeights_nonneg cfg metrics struct hl hfix qb (List.of_mem_zip hq).2
  have hsep : (calculate_layout cfg struct metrics).panels.Pairwise
      (fun p q => p.rect.x1 ≤ q.rect.x0 ∨ p.rect.y1 ≤ q.rect.y0) :=
    placeRows_pairwise_separated cfg metrics hs _ cfg.margin hwz hhz
  refine ⟨hsep, hsep.imp separated_not_overlap, ?_, ?_⟩
  · intro p hp
    obtain ⟨row, hgt, hq, y0, hmem⟩ := placeRows_mem cfg metrics _ cfg.margin hp
    obtain ⟨hidx, hwidth, hy0, hy1⟩ :=
      placeRowPanels_mem cfg metrics hgt y0 row cfg.margin _ hmem
    refine ⟨row, hgt, hq, hidx, hwidth, ?_, ?_, ?_⟩
    · rw [hy1, hy0]
      ring
    · exact placeRowPanels_x0_lb cfg metrics hgt y0 row cfg.margin _
        (hw row (List.of_mem_zip hq).1) hs hmem
    · exact placeRows_y0_lb cfg metrics hs _ cfg.margin hhz p hp
  · cases struct with
    | nil =>
        intro p0 hp0
        rw [show (calculate_layout cfg [] metrics).panels = [] from rfl] at hp0
        exact Option.noConfusion hp0
    | cons r rs =>
        intro p0 hp0
        obtain ⟨i, r', hri⟩ := List.exists_cons_of_ne_nil
          (hrows r (List.mem_cons_self _ _))
        have hALlen := actualRowHeights_length cfg metrics (r :: rs)
        have hALne : actualRowHeights cfg metrics (r :: rs) ≠ [] := by
          intro hnil
          rw [hnil] at hALlen
          simp at hALlen
        obtain ⟨h0, hs', hact⟩ := List.exists_cons_of_ne_nil hALne
        have hpanels : (calculate_layout cfg (r :: rs) metrics).panels
            = placeRows cfg metrics
              ((r :: rs).zip (actualRowHeights cfg metrics (r :: rs))) cfg.margin := rfl
        rw [hpanels, hact, List.zip_cons_cons, placeRows, hri, placeRowPanels,
          List.cons_append, List.head?_cons] at hp0
        obtain rfl := Option.some.inj hp0
        exact ⟨rfl, rfl⟩

/-- The three-row structure and metrics of the C10 counterexample:
ratios 1, 1000, 1 at 10 mm page width, zero margin and spacing, and a
negative label size. -/
def cfgNegLabel : Config := mkPanelGenerator 10 none 0 0 (-10)

/-- Metrics for the C10 counterexample. -/
def metricsNegLabel : List Metric :=
  [{ width := 1, height := 1, ratio := 1, path := "a" },
   { width := 1000, height := 1, ratio := 1000, path := "b" },
   { width := 1, height := 1, ratio := 1, path := "c" }]

/-- A throwaway placement for `List.getD`. -/
def dummyPlacement : PanelPlacement :=
  { index := 0, rect := ⟨0, 0, 0, 0⟩, path := "" }

/-- C10 counterexample: with nonempty rows, positive ratios,
non-negative spacing and margin and no fixed page height — everything
the claim assumes — a negative label size makes the middle row's height
negative, the vertical cursor moves back up, and the first and third
placements' interiors overlap: the claimed pairwise disjointness is
false. -/
theorem placements_overlap_under_negative_label :
    (∀ row ∈ ([[0], [1], [2]] : List (List ℕ)), row ≠ []) ∧
      (∀ row ∈ ([[0], [1], [2]] : List (List ℕ)), ∀ i ∈ row,
        0 < (metricAt metricsNegLabel i).ratio) ∧
      0 ≤ cfgNegLabel.spacing ∧ 0 ≤ cfgNegLabel.margin ∧
      cfgNegLabel.page_height_mm = none ∧
      interiorsOverlap
        (((calculate_layout cfgNegLabel [[0], [1], [2]] metricsNegLabel).panels.getD
          0 dummyPlacement).rect)
        (((calculate_layout cfgNegLabel [[0], [1], [2]] metricsNegLabel).panels.getD
          2 dummyPlacement).rect) := by
  refine ⟨by decide, ?_, ?_, ?_, rfl, ?_⟩
  · norm_num [metricsNegLabel, metricAt, List.getD_cons_zero, List.getD_cons_succ]
  · norm_num [cfgNegLabel, mkPanelGenerator]
  · norm_num [cfgNegLabel, mkPanelGenerator]
  · norm_num [interiorsOverlap, calculate_layout, placeRows, placeRowPanels,
      actualRowHeights, rowIdealHeights, rowIdealHeight, rowRequiredHeight,
      rowPanelWidth, rowAvailWidth, scaleFactor, finalUsableHeight, finalPageHeight,
      totalIdealHeight, fixedHeightMM, metricAt, cfgNegLabel, mkPanelGenerator,
      metricsNegLabel, dummyPlacement, mm, List.getD_cons_zero, List.getD_cons_succ,
      max_def, min_def]

/-- C10 witness: the parsed two-row structure with three square metrics
at the default configuration satisfies every hypothesis of the amended
claim. -/
theorem placements_disjoint_and_stacked_witness :
    ((calculate_layout cfgDefault [[0, 1], [2]]
        [squareMetric, squareMetric, squareMetric]).panels.Pairwise
        (fun p q => p.rect.x1 ≤ q.rect.x0 ∨ p.rect.y1 ≤ q.rect.y0)) ∧
      ((calculate_layout cfgDefault [[0, 1], [2]]
        [squareMetric, squareMetric, squareMetric]).panels.Pairwise
        (fun p q => ¬ interiorsOverlap p.rect q.rect)) ∧
      (∀ p ∈ (calculate_layout cfgDefault [[0, 1], [2]]
          [squareMetric, squareMetric, squareMetric]).panels,
        ∃ row hgt, (row, hgt) ∈ ([[0, 1], [2]] : List (List ℕ)).zip
            (actualRowHeights cfgDefault [squareMetric, squareMetric, squareMetric]
              [[0, 1], [2]]) ∧
          p.index ∈ row ∧ p.rect.x1 - p.rect.x0 = rowPanelWidth cfgDefault row ∧
          p.rect.y1 - p.rect.y0 = hgt ∧
          cfgDefault.margin ≤ p.rect.x0 ∧ cfgDefault.margin ≤ p.rect.y0) ∧
      (∀ p0, (calculate_layout cfgDefault [[0, 1], [2]]
          [squareMetric, squareMetric, squareMetric]).panels.head? = some p0 →
        p0.rect.x0 = cfgDefault.margin ∧ p0.rect.y0 = cfgDefault.margin) :=
  placements_disjoint_and_stacked cfgDefault
    [squareMetric, squareMetric, squareMetric] [[0, 1], [2]]
    (by decide)
    (by norm_num [metricAt, squareMetric, List.getD_cons_zero, List.getD_cons_succ])
    (by norm_num [cfgDefault, mkPanelGenerator, mm])
    (by norm_num [cfgDefault, mkPanelGenerator, mm])
    (by norm_num [cfgDefault, mkPanelGenerator])
    (by norm_num [rowPanelWidth, rowAvailWidth, cfgDefault, mkPanelGenerator, mm])
    (Or.inl rfl)

end PanelGen
